import Mathlib

/-!
# Clawg token directory — verification of the analytics and signal-score pipeline

Shallow embedding of the scoring and aggregation code of the Clawg workers:

* `src/unnamed/part_012` (analytics engine): engagement rates, growth trend,
  audience score, batch analytics recompute;
* `src/workers/src/lib/signal.ts`: the four signal sub-scores, their composition,
  and the batch signal-score recompute;
* `src/workers/src/lib/tokens.ts`: Uniswap price derivation, multi-adapter merge,
  snapshot recording with holder carry-forward.

JavaScript numbers are modelled as `ℚ` (the computations at issue are exact at
the scale of these checks); BigInt arithmetic is modelled as `ℕ` with floor
division; timestamps are `ℤ` milliseconds.  A database `null` hit by `x || 0`
is modelled as the value `0`; adversarial stored values are arbitrary `ℚ`.
-/

namespace Clawg

/-- JS `Math.round(x * 10) / 10` (round half toward +∞), used by the score
calculators to keep one decimal. -/
def round10 (q : ℚ) : ℚ := (Int.floor (q * 10 + 1/2) : ℚ) / 10

-- ===========================================================================
-- Analytics engine (src/unnamed/part_012)
-- ===========================================================================

/-- The five reaction counters of a build log (`BuildLog.reactionCounts`). -/
structure ReactionCounts where
  fire : ℕ
  ship : ℕ
  claw : ℕ
  brain : ℕ
  bug : ℕ
deriving Repr, DecidableEq

/-- A build log as read by the analytics engine: impressions, reaction
counters and comment count. -/
structure BuildLog where
  impressions : ℕ
  reactionCounts : ReactionCounts
  commentCount : ℕ
deriving Repr, DecidableEq

/-- Total of the five reaction counters of a log. -/
def BuildLog.totalReactions (log : BuildLog) : ℕ :=
  log.reactionCounts.fire + log.reactionCounts.ship + log.reactionCounts.claw +
    log.reactionCounts.brain + log.reactionCounts.bug

/-- `calculateLogEngagementRate` (part_012): per-post engagement rate,
`(reactions + comments) / impressions`, `0` when `impressions === 0`. -/
def calculateLogEngagementRate (log : BuildLog) : ℚ :=
  if log.impressions = 0 then 0
  else ((log.totalReactions : ℚ) + log.commentCount) / log.impressions

/-- A log row as selected by `calculateGrowthTrend` /
`calculateAgentEngagementRate`: creation timestamp (ms) plus the engagement
columns. -/
structure LogRow where
  created_at : ℤ
  impressions : ℕ
  reaction_fire : ℕ
  reaction_ship : ℕ
  reaction_claw : ℕ
  reaction_brain : ℕ
  reaction_bug : ℕ
  comment_count : ℕ
deriving Repr, DecidableEq

/-- Engagement of one row: the five reaction counters plus the comment count. -/
def LogRow.engagement (l : LogRow) : ℕ :=
  l.reaction_fire + l.reaction_ship + l.reaction_claw + l.reaction_brain +
    l.reaction_bug + l.comment_count

/-- The local `calcRate` helper of `calculateGrowthTrend` (part_012): summed
engagement over summed impressions, `0` for an empty list or zero total
impressions. -/
def calcRate (logs : List LogRow) : ℚ :=
  if logs = [] then 0
  else
    let impressions : ℕ := (logs.map LogRow.impressions).sum
    let engagement : ℕ := (logs.map LogRow.engagement).sum
    if 0 < impressions then (engagement : ℚ) / impressions else 0

/-- One day in milliseconds (`24 * 60 * 60 * 1000`). -/
def DAY_MS : ℤ := 24 * 60 * 60 * 1000

/-- The engagement rate of the most recent `periodDays`-day window
(`currentLogs` / `currentRate` in `calculateGrowthTrend`). -/
def currentWindowRate (logs : List LogRow) (now : ℤ) (periodDays : ℕ) : ℚ :=
  calcRate (logs.filter fun l => now - periodDays * DAY_MS ≤ l.created_at)

/-- The engagement rate of the preceding window of equal length
(`prevLogs` / `prevRate` in `calculateGrowthTrend`). -/
def prevWindowRate (logs : List LogRow) (now : ℤ) (periodDays : ℕ) : ℚ :=
  calcRate (logs.filter fun l =>
    now - periodDays * DAY_MS - periodDays * DAY_MS ≤ l.created_at ∧
      l.created_at < now - periodDays * DAY_MS)

/-- `calculateGrowthTrend` (part_012) on the agent's logs: compares the summed
engagement rate of the window `[now - periodDays, now)` with the preceding
window of equal length; `100` when the previous rate is `0` and the current is
positive, `0` when both are `0`, else the percentage change. -/
def calculateGrowthTrend (logs : List LogRow) (now : ℤ) (periodDays : ℕ) : ℚ :=
  let currentRate := currentWindowRate logs now periodDays
  let prevRate := prevWindowRate logs now periodDays
  if prevRate = 0 then (if 0 < currentRate then 100 else 0)
  else ((currentRate - prevRate) / prevRate) * 100

/-- One reaction or comment row as selected by `calculateAudienceScore`
(part_012): the engaging agent's id together with the joined agent row's
`engagement_rate` (`none` when the join produced no agent). -/
structure EngagementItem where
  agent_id : ℕ
  agent : Option ℚ
deriving Repr, DecidableEq

/-- The `processEngagement` accumulator of `calculateAudienceScore`: folds
`(weightedSum, totalWeight)` over a list of engagement rows, skipping rows
whose joined agent is `null`. -/
def processEngagement (acc : ℚ × ℕ) (items : List EngagementItem) : ℚ × ℕ :=
  items.foldl
    (fun a item =>
      match item.agent with
      | some rate => (a.1 + rate, a.2 + 1)
      | none => a)
    acc

/-- `calculateAudienceScore` (part_012): runs `processEngagement` over the
reaction rows and then the comment rows, and returns
`min (weightedSum / totalWeight * 1000) 100`, or `0` when no row had a joined
agent. -/
def calculateAudienceScore (reactions comments : List EngagementItem) : ℚ :=
  let acc := processEngagement (processEngagement (0, 0) reactions) comments
  if acc.2 = 0 then 0 else min (acc.1 / acc.2 * 1000) 100

/-- The audience score as the spec words it for the claim under test: the mean
engagement rate of the *distinct* agents that engaged (each engager counted
once no matter how many reactions/comments they made), scaled ×1000 and capped
at 100. -/
def audienceScoreDistinct (reactions comments : List EngagementItem) : ℚ :=
  let present := (reactions ++ comments).filter fun i => i.agent.isSome
  let ids := (present.map EngagementItem.agent_id).dedup
  let rates := ids.filterMap fun i =>
    ((present.filter fun it => it.agent_id == i).head?).bind EngagementItem.agent
  if rates.length = 0 then 0 else min (rates.sum / rates.length * 1000) 100

/-- The audience score as a per-event mean: every reaction and every comment
with a joined agent contributes that agent's engagement rate once to the mean
(an agent who engaged `k` times is counted `k` times), scaled ×1000 and capped
at 100. -/
def audienceScoreByEvent (reactions comments : List EngagementItem) : ℚ :=
  let rates := (reactions ++ comments).filterMap EngagementItem.agent
  if rates.length = 0 then 0 else min (rates.sum / rates.length * 1000) 100

-- ===========================================================================
-- Signal score (src/workers/src/lib/signal.ts)
-- ===========================================================================

/-- A log row as selected by `calculateBuildScore`: creation timestamp and
`quality_score` (a stored `null` maps to `0`, matching `l.quality_score || 0`;
any other stored value passes through unchanged). -/
structure SignalLogRow where
  created_at : ℤ
  quality_score : ℚ
deriving Repr, DecidableEq

/-- `calculateBuildScore` (signal.ts): log count (max 10), recency bonus
(max 10) and average quality (nominally max 10) over the agent's logs of the
last 90 days; `0` with no logs in the window. -/
def calculateBuildScore (logs : List SignalLogRow) (now : ℤ) : ℚ :=
  let logs90 := logs.filter fun l => now - 90 * DAY_MS ≤ l.created_at
  if logs90 = [] then 0
  else
    let countScore := min ((logs90.length : ℚ) / 20 * 10) 10
    let recentLogs := logs90.filter fun l => now - 7 * DAY_MS < l.created_at
    let recencyScore := min ((recentLogs.length : ℚ) / 5 * 10) 10
    let avgQuality := (logs90.map SignalLogRow.quality_score).sum / logs90.length
    let qualityScore := avgQuality / 100 * 10
    round10 (countScore + recencyScore + qualityScore)

/-- A token snapshot row as read by `calculateTokenScore`; each field already
has the `|| 0` null-default applied, adversarial stored values pass through. -/
structure SnapshotRow where
  market_cap : ℚ
  holders : ℚ
  liquidity : ℚ
  volume_24h : ℚ
deriving Repr, DecidableEq

/-- The market-cap tier table of `calculateTokenScore` (strict `>` at each
breakpoint). -/
def mcapScore (mcap : ℚ) : ℚ :=
  if 100000000 < mcap then 15
  else if 10000000 < mcap then 12
  else if 1000000 < mcap then 9
  else if 100000 < mcap then 6
  else if 10000 < mcap then 3
  else if 1000 < mcap then 1
  else 0

/-- `calculateTokenScore` (signal.ts) on the latest snapshot of the agent's
primary token; `0` when the agent has no primary token or no snapshot. -/
def calculateTokenScore (snapshot : Option SnapshotRow) : ℚ :=
  match snapshot with
  | none => 0
  | some snap =>
    let holderScore := min (snap.holders / 1000 * 7) 7
    let liquidityScore := min (snap.liquidity / 100000 * 5) 5
    let volumeScore := min (snap.volume_24h / 50000 * 3) 3
    round10 (mcapScore snap.market_cap + holderScore + liquidityScore + volumeScore)

/-- `calculateSocialScore` (signal.ts): engagement rate against a 5% target
(max 12), audience score rescaled from 100 to 10 (no clamp), growth trend
against a +50% target (clamped to [0, 8]). -/
def calculateSocialScore (engagement_rate audience_score growth_trend : ℚ) : ℚ :=
  let engagementScore := min (engagement_rate / (5 / 100) * 12) 12
  let audienceScore := audience_score / 100 * 10
  let growthScore := max 0 (min (growth_trend / 50 * 8) 8)
  round10 (engagementScore + audienceScore + growthScore)

/-- `calculateVerificationBonus` (signal.ts): ERC-8004 identity 5, Twitter 2,
GitHub 2, website 1, capped at 10. -/
def calculateVerificationBonus (erc8004 twitter github website : Bool) : ℚ :=
  min ((if erc8004 then 5 else 0) + (if twitter then 2 else 0) +
    (if github then 2 else 0) + (if website then 1 else 0)) 10

/-- An agent row with the columns the signal calculators read, plus the
`signal_score` column the batch job writes. -/
structure AgentRow where
  id : ℕ
  erc8004 : Bool
  twitter : Bool
  linked_github : Bool
  website : Bool
  engagement_rate : ℚ
  audience_score : ℚ
  growth_trend : ℚ
  signal_score : ℚ
deriving Repr, DecidableEq

/-- The stored state the signal pipeline reads and writes: the agents table,
each agent's logs, the latest snapshot of each agent's primary token, and the
current time.  `logsOf`/`snapshotOf` model the per-agent log and snapshot
queries of signal.ts. -/
structure Store where
  agents : List AgentRow
  logsOf : ℕ → List SignalLogRow
  snapshotOf : ℕ → Option SnapshotRow
  now : ℤ

/-- The `.eq('id', agentId).single()` lookup on the agents table: the first
row with the given id. -/
def findAgent (l : List AgentRow) (agentId : ℕ) : Option AgentRow :=
  match l with
  | [] => none
  | a :: rest => if a.id == agentId then some a else findAgent rest agentId

/-- `calculateSignalScore` (signal.ts) for one agent id against a store: the
four sub-scores summed, clamped above at 100, rounded to one decimal.  The
social and verification calculators return `0` when the agent row is absent,
as in the source. -/
def calculateSignalScoreFor (st : Store) (agentId : ℕ) : ℚ :=
  let agentRow := findAgent st.agents agentId
  let buildScore := calculateBuildScore (st.logsOf agentId) st.now
  let tokenScore := calculateTokenScore (st.snapshotOf agentId)
  let socialScore := match agentRow with
    | none => 0
    | some a => calculateSocialScore a.engagement_rate a.audience_score a.growth_trend
  let verificationBonus := match agentRow with
    | none => 0
    | some a => calculateVerificationBonus a.erc8004 a.twitter a.linked_github a.website
  round10 (min (buildScore + tokenScore + socialScore + verificationBonus) 100)

/-- Effect of `update({ signal_score: score }).eq('id', agentId)` on one row:
a row with the given id gets the new score, any other row is untouched. -/
def gUpdate (agentId : ℕ) (v : ℚ) (a : AgentRow) : AgentRow :=
  if a.id == agentId then { a with signal_score := v } else a

/-- The `update({ signal_score: score }).eq('id', agentId)` write: every agent
row with the given id gets the new score, nothing else changes. -/
def setSignalScore (st : Store) (agentId : ℕ) (v : ℚ) : Store :=
  { st with agents := st.agents.map (gUpdate agentId v) }

/-- One iteration of the `updateAllSignalScores` loop: recompute and write the
agent's score. -/
def signalStep (st : Store) (agentId : ℕ) : Store :=
  setSignalScore st agentId (calculateSignalScoreFor st agentId)

/-- The ids selected by `updateAllSignalScores`: all agents whose
`erc8004_agent_id` is not null. -/
def verifiedIds (st : Store) : List ℕ :=
  ((st.agents.filter fun a => a.erc8004).map AgentRow.id)

/-- `updateAllSignalScores` (signal.ts): for every identity-verified agent,
recompute the signal score and write it back, sequentially. -/
def updateAllSignalScores (st : Store) : Store :=
  (verifiedIds st).foldl signalStep st

-- ===========================================================================
-- Token data (src/workers/src/lib/tokens.ts)
-- ===========================================================================

/-- `Q96 = 2^96`, the Uniswap fixed-point scale. -/
def Q96 : ℕ := 2 ^ 96

/-- The BigInt computation
`(sqrtPriceX96 * sqrtPriceX96 * 10n**18n) / (Q96 * Q96)` of
`fetchFromUniswapV4` (floor division on naturals). -/
def priceE18 (sqrtPriceX96 : ℕ) : ℕ :=
  sqrtPriceX96 * sqrtPriceX96 * 10 ^ 18 / (Q96 * Q96)

/-- `parseEthPrice` (tokens.ts): ETH/USD from the V3 WETH(18)/USDC(6) pool,
`sqrtPriceX96² * 10¹⁸ / Q96²` floor-divided as BigInt, then divided by `10⁶`. -/
def parseEthPrice (sqrtPriceX96 : ℕ) : ℚ :=
  ((sqrtPriceX96 * sqrtPriceX96 * 10 ^ 18 / (Q96 * Q96) : ℕ) : ℚ) / 10 ^ 6

/-- The decimal-precision scaling of `fetchFromUniswapV4`: `priceE18 / 1e18`
at 18 decimals, multiplied by `10^(d-18)` (as BigInt, before the division)
when the token has more decimals than WETH, divided by `10^(18-d)` when it has
fewer. -/
def tokenPriceInWeth (sqrtPriceX96 : ℕ) (tokenDecimals : ℕ) : ℚ :=
  let p := priceE18 sqrtPriceX96
  if tokenDecimals = 18 then (p : ℚ) / 10 ^ 18
  else if 18 < tokenDecimals then
    ((p * 10 ^ (tokenDecimals - 18) : ℕ) : ℚ) / 10 ^ 18
  else
    (p : ℚ) / ((10 ^ (18 - tokenDecimals) : ℕ) * 10 ^ 18)

/-- The derived USD price of `fetchFromUniswapV4`:
`tokenPriceInWeth * ethPrice`. -/
def derivedPriceUsd (sqrtPriceX96 : ℕ) (tokenDecimals : ℕ) (ethPrice : ℚ) : ℚ :=
  tokenPriceInWeth sqrtPriceX96 tokenDecimals * ethPrice

/-- The merged metrics record built by `fetchTokenData`. -/
structure TokenData where
  priceUsd : ℚ
  marketCap : ℚ
  holders : ℚ
  volume24h : ℚ
  liquidity : ℚ
  priceChange24h : ℚ
deriving Repr, DecidableEq

/-- One adapter's partial result (`Partial<TokenData>` in `fetchTokenData`):
`none` is a missing field. -/
structure PartialTokenData where
  priceUsd : Option ℚ := none
  marketCap : Option ℚ := none
  holders : Option ℚ := none
  volume24h : Option ℚ := none
  liquidity : Option ℚ := none
  priceChange24h : Option ℚ := none
deriving Repr, DecidableEq

/-- `best` (tokens.ts): `(a && a > 0) ? a : (b && b > 0) ? b : 0` — keeps the
accumulated value when it is strictly positive, else takes a strictly positive
incoming value, else `0`. -/
def best (a : ℚ) (b : Option ℚ) : ℚ :=
  if 0 < a then a
  else
    match b with
    | some bv => if 0 < bv then bv else 0
    | none => 0

/-- The per-field merge loop of `fetchTokenData`: fold `best` over the
adapters' values for one field, starting from the zero-initialised record. -/
def mergeField (vals : List (Option ℚ)) : ℚ :=
  vals.foldl best 0

/-- The `priceChange24h` merge step of `fetchTokenData`: take the incoming
value only when the accumulated one is still `0`, the incoming one is present
and it is non-zero (this field, unlike the others, may be negative). -/
def bestChange (a : ℚ) (b : Option ℚ) : ℚ :=
  match b with
  | some bv => if a = 0 ∧ bv ≠ 0 then bv else a
  | none => a

/-- The merge phase of `fetchTokenData`: field-wise folds over the adapter
results in priority order (direct DEX read first, then the aggregator
results). -/
def mergeTokenData (results : List PartialTokenData) : TokenData where
  priceUsd := mergeField (results.map PartialTokenData.priceUsd)
  marketCap := mergeField (results.map PartialTokenData.marketCap)
  holders := mergeField (results.map PartialTokenData.holders)
  volume24h := mergeField (results.map PartialTokenData.volume24h)
  liquidity := mergeField (results.map PartialTokenData.liquidity)
  priceChange24h := (results.map PartialTokenData.priceChange24h).foldl bestChange 0

/-- The merge policy as the spec words it for the claim under test: per field,
the first non-zero, non-missing value in adapter order; `0` when every value
is zero or missing. -/
def firstNonZero : List (Option ℚ) → ℚ
  | [] => 0
  | some x :: rest => if x ≠ 0 then x else firstNonZero rest
  | none :: rest => firstNonZero rest

/-- The merge policy the code implements, in spec form: per field, the first
strictly positive value in adapter order; `0` when no value is positive. -/
def firstPositive : List (Option ℚ) → ℚ
  | [] => 0
  | some x :: rest => if 0 < x then x else firstPositive rest
  | none :: rest => firstPositive rest

/-- A stored token snapshot as read back by `recordTokenSnapshot`'s
carry-forward query; only `snapshot_at` and `holders` are selected.  Lists of
these rows are kept most-recent-first, matching the
`order('snapshot_at', descending)` of the query. -/
structure StoredSnapshot where
  snapshot_at : ℤ
  holders : ℚ
deriving Repr, DecidableEq

/-- The carry-forward query of `recordTokenSnapshot`: among the token's stored
snapshots (most-recent-first), the first with `holders > 0`. -/
def lastPositiveHolders (history : List StoredSnapshot) : Option ℚ :=
  ((history.filter fun s => 0 < s.holders).head?).map StoredSnapshot.holders

/-- The row inserted into the snapshot store by `recordTokenSnapshot`. -/
structure TokenSnapshotInsert where
  price_usd : ℚ
  market_cap : ℚ
  holders : ℚ
  volume_24h : ℚ
  liquidity : ℚ
  price_change_24h : ℚ
deriving Repr, DecidableEq

/-- `recordTokenSnapshot` (tokens.ts) after the fetch: when the fetched holder
count is `0`, replace it with the most recent stored positive holder count if
one exists; every other field is inserted as fetched. -/
def recordTokenSnapshot (data : TokenData) (history : List StoredSnapshot) :
    TokenSnapshotInsert :=
  let holders :=
    if data.holders = 0 then
      match lastPositiveHolders history with
      | some h => h
      | none => data.holders
    else data.holders
  { price_usd := data.priceUsd
    market_cap := data.marketCap
    holders := holders
    volume_24h := data.volume24h
    liquidity := data.liquidity
    price_change_24h := data.priceChange24h }

-- ===========================================================================
-- Batch-job control flow (scheduled handler, signal.ts, part_012)
-- ===========================================================================

/-- The loop shape shared by the snapshot-refresh job (scheduled handler /
`/api/cron/snapshots`) and `updateAllSignalScores`: each item's
compute-and-write is wrapped in `try { ... } catch { log }`, so a failing item
(`f i = none`) is skipped and the loop continues.  Returns the items
processed, with their results, in order. -/
def runContinuing {α β : Type} (f : α → Option β) (items : List α) :
    List (α × β) :=
  items.foldl
    (fun acc i =>
      match f i with
      | some v => acc ++ [(i, v)]
      | none => acc)
    []

/-- The loop shape of `recalculateAllAnalytics` (part_012): no per-item
`try/catch`, so the first failing item's exception propagates out of the
function.  Returns the items processed before the failure together with a flag
recording whether the run aborted. -/
def runAborting {α β : Type} (f : α → Option β) : List α → List (α × β) × Bool
  | [] => ([], false)
  | i :: rest =>
    match f i with
    | some v =>
      let tail := runAborting f rest
      ((i, v) :: tail.1, tail.2)
    | none => ([], true)

/-- A concrete batch for the error-handling check: the item `0` fails, every
other item succeeds. -/
def failsOnZero : ℕ → Option ℕ :=
  fun i => if i = 0 then none else some i

/-- An adversarial store: one identity-verified agent (ERC-8004 only) whose
single log, ten days old, carries a stored `quality_score` of `-10000`; no
primary token, all social metrics `0`. -/
def adversarialStore : Store where
  agents := [{ id := 1, erc8004 := true, twitter := false, linked_github := false,
               website := false, engagement_rate := 0, audience_score := 0,
               growth_trend := 0, signal_score := 0 }]
  logsOf := fun i => if i = 1 then [{ created_at := -10 * DAY_MS, quality_score := -10000 }] else []
  snapshotOf := fun _ => none
  now := 0

-- ===========================================================================
-- Theorems
-- ===========================================================================

/-- C6: a post's engagement rate is `(sum of the five reaction counters +
comment count) / impressions`, exactly `0` when `impressions = 0` (no division
by zero), and never negative. -/
theorem logEngagementRate_safe (log : BuildLog) :
    0 ≤ calculateLogEngagementRate log ∧
    (log.impressions = 0 → calculateLogEngagementRate log = 0) ∧
    (log.impressions ≠ 0 →
      calculateLogEngagementRate log =
        ((log.totalReactions : ℚ) + log.commentCount) / log.impressions) := by
  unfold calculateLogEngagementRate
  split_ifs with h
  · exact ⟨le_refl 0, fun _ => rfl, fun hc => absurd h hc⟩
  · refine ⟨?_, fun hc => absurd hc h, fun _ => rfl⟩
    positivity

/-- C6 witness: the rate of a concrete post with 10 impressions, reactions
1+2+0+1+1 and 3 comments, and of a concrete post with 0 impressions. -/
theorem logEngagementRate_safe_witness :
    0 ≤ calculateLogEngagementRate ⟨10, ⟨1, 2, 0, 1, 1⟩, 3⟩ ∧
    calculateLogEngagementRate ⟨0, ⟨1, 2, 0, 1, 1⟩, 3⟩ = 0 :=
  ⟨(logEngagementRate_safe ⟨10, ⟨1, 2, 0, 1, 1⟩, 3⟩).1,
    (logEngagementRate_safe ⟨0, ⟨1, 2, 0, 1, 1⟩, 3⟩).2.1 rfl⟩

/-- C7: the growth trend compares the engagement rate of the most recent
`p`-day window with the preceding window of equal length: it is `100` when the
previous rate is `0` and the current one positive, `0` when both are `0`, and
otherwise the percentage change `(current - previous) / previous * 100`. -/
theorem growthTrend_spec (logs : List LogRow) (now : ℤ) (p : ℕ) :
    (prevWindowRate logs now p = 0 → 0 < currentWindowRate logs now p →
      calculateGrowthTrend logs now p = 100) ∧
    (prevWindowRate logs now p = 0 → currentWindowRate logs now p = 0 →
      calculateGrowthTrend logs now p = 0) ∧
    (prevWindowRate logs now p ≠ 0 →
      calculateGrowthTrend logs now p =
        ((currentWindowRate logs now p - prevWindowRate logs now p) /
          prevWindowRate logs now p) * 100) := by
  unfold calculateGrowthTrend
  refine ⟨fun h1 h2 => ?_, fun h1 h2 => ?_, fun h1 => ?_⟩
  · simp [h1, h2]
  · simp [h1, h2]
  · simp [h1]

/-- C7 witness: one log of rate 1/10 in the current window, an empty previous
window, period 7 days, now = 0 — the trend is exactly 100. -/
theorem growthTrend_spec_witness :
    prevWindowRate [⟨-DAY_MS, 10, 1, 0, 0, 0, 0, 0⟩] 0 7 = 0 ∧
    0 < currentWindowRate [⟨-DAY_MS, 10, 1, 0, 0, 0, 0, 0⟩] 0 7 ∧
    calculateGrowthTrend [⟨-DAY_MS, 10, 1, 0, 0, 0, 0, 0⟩] 0 7 = 100 := by
  have h1 : prevWindowRate [⟨-DAY_MS, 10, 1, 0, 0, 0, 0, 0⟩] 0 7 = 0 := by
    norm_num [prevWindowRate, calcRate, DAY_MS, List.filter]
  have h2 : 0 < currentWindowRate [⟨-DAY_MS, 10, 1, 0, 0, 0, 0, 0⟩] 0 7 := by
    norm_num [currentWindowRate, calcRate, DAY_MS, List.filter, LogRow.engagement]
  exact ⟨h1, h2, (growthTrend_spec [⟨-DAY_MS, 10, 1, 0, 0, 0, 0, 0⟩] 0 7).1 h1 h2⟩

/-- Folding `best` from a strictly positive accumulator never changes it. -/
lemma foldl_best_of_pos (vals : List (Option ℚ)) (a : ℚ) (h : 0 < a) :
    vals.foldl best a = a := by
  induction vals with
  | nil => rfl
  | cons v rest ih =>
    rw [List.foldl_cons]
    have hb : best a v = a := by unfold best; rw [if_pos h]
    rw [hb, ih]

/-- The field-merge fold of `fetchTokenData` picks the first strictly positive
value, not the first non-zero one. -/
lemma mergeField_eq_firstPositive (vals : List (Option ℚ)) :
    mergeField vals = firstPositive vals := by
  induction vals with
  | nil => rfl
  | cons v rest ih =>
    unfold mergeField at ih ⊢
    rw [List.foldl_cons]
    cases v with
    | none =>
      have hb : best 0 none = 0 := by unfold best; norm_num
      rw [hb, ih]
      rfl
    | some x =>
      by_cases hx : 0 < x
      · have hb : best 0 (some x) = x := by unfold best; simp [hx]
        rw [hb, foldl_best_of_pos rest x hx]
        simp [firstPositive, hx]
      · have hb : best 0 (some x) = 0 := by unfold best; simp [hx]
        rw [hb, ih]
        simp [firstPositive, hx]

/-- C3 counterexample: an adapter list whose only value for a field is the
non-zero `-10`; the merged field is `0`, not the first non-zero value. -/
theorem merge_drops_nonzero_negative :
    mergeField [some (-10)] = 0 ∧ firstNonZero [some (-10)] = -10 ∧
      ((0 : ℚ) ≠ -10) := by
  refine ⟨?_, ?_, by norm_num⟩
  · rfl
  · unfold firstNonZero
    norm_num

/-- Folding the priceChange24h merge step from a non-zero accumulator never
changes it. -/
lemma foldl_bestChange_of_ne (vals : List (Option ℚ)) (a : ℚ) (h : a ≠ 0) :
    vals.foldl bestChange a = a := by
  induction vals with
  | nil => rfl
  | cons v rest ih =>
    rw [List.foldl_cons]
    have hb : bestChange a v = a := by
      unfold bestChange
      cases v with
      | none => rfl
      | some bv =>
        dsimp only
        rw [if_neg (by simp [h])]
    rw [hb, ih]

/-- The priceChange24h fold of `fetchTokenData` picks the first non-zero,
non-missing value — negatives included, unlike the `best`-merged fields. -/
lemma foldl_bestChange_eq_firstNonZero (vals : List (Option ℚ)) :
    vals.foldl bestChange 0 = firstNonZero vals := by
  induction vals with
  | nil => rfl
  | cons v rest ih =>
    rw [List.foldl_cons]
    cases v with
    | none =>
      have hb : bestChange 0 none = 0 := rfl
      rw [hb, ih]
      rfl
    | some x =>
      by_cases hx : x ≠ 0
      · have hb : bestChange 0 (some x) = x := by
          unfold bestChange
          dsimp only
          rw [if_pos ⟨rfl, hx⟩]
        rw [hb, foldl_bestChange_of_ne rest x hx]
        simp [firstNonZero, hx]
      · push_neg at hx
        subst hx
        have hb : bestChange 0 (some 0) = 0 := by unfold bestChange; simp
        rw [hb, ih]
        simp [firstNonZero]

/-- C3 (amended): for each of the five `best`-merged fields — price, market
cap, holders, volume, liquidity — the merged value is the first *strictly
positive*, non-missing value in adapter-priority order (a non-zero negative
value is skipped like zero, so such a field merges to 0 when no value is
positive); for the 24h price change alone the merge takes the first non-zero,
non-missing value, negatives included, as originally claimed; with scenario
A's two adapter results — the direct on-chain read with price $2.00 and market
cap $2,000,000 and the aggregator with 500 holders, $50,000 liquidity, $10,000
volume — the merged record is exactly those values, the on-chain price and
market cap winning. -/
theorem merge_policies_by_field_scenarioA (results : List PartialTokenData) :
    (mergeTokenData results).priceUsd =
      firstPositive (results.map PartialTokenData.priceUsd) ∧
    (mergeTokenData results).marketCap =
      firstPositive (results.map PartialTokenData.marketCap) ∧
    (mergeTokenData results).holders =
      firstPositive (results.map PartialTokenData.holders) ∧
    (mergeTokenData results).volume24h =
      firstPositive (results.map PartialTokenData.volume24h) ∧
    (mergeTokenData results).liquidity =
      firstPositive (results.map PartialTokenData.liquidity) ∧
    (mergeTokenData results).priceChange24h =
      firstNonZero (results.map PartialTokenData.priceChange24h) ∧
    mergeTokenData
        [⟨some 2, some 2000000, some 0, some 0, some 0, some 0⟩,
         ⟨none, none, some 500, some 10000, some 50000, none⟩] =
      ⟨2, 2000000, 500, 10000, 50000, 0⟩ :=
  ⟨mergeField_eq_firstPositive _, mergeField_eq_firstPositive _,
    mergeField_eq_firstPositive _, mergeField_eq_firstPositive _,
    mergeField_eq_firstPositive _, foldl_bestChange_eq_firstNonZero _, by decide⟩

/-- The try/catch-per-item loop processes exactly the non-failing items. -/
lemma runContinuing_go {α β : Type} (f : α → Option β) (items : List α)
    (acc : List (α × β)) :
    items.foldl
        (fun acc i =>
          match f i with
          | some v => acc ++ [(i, v)]
          | none => acc)
        acc =
      acc ++ items.filterMap (fun i => (f i).map fun v => (i, v)) := by
  induction items generalizing acc with
  | nil => simp
  | cons i rest ih =>
    rw [List.foldl_cons]
    cases hf : f i with
    | none => simp [hf, ih]
    | some v => simp [hf, ih]

/-- The closed form of `runContinuing`. -/
lemma runContinuing_eq {α β : Type} (f : α → Option β) (items : List α) :
    runContinuing f items =
      items.filterMap (fun i => (f i).map fun v => (i, v)) := by
  unfold runContinuing
  simpa using runContinuing_go f items []

/-- The closed form of `runAborting`: the prefix before the first failure is
processed, the rest is not, and the run aborts iff some item fails. -/
lemma runAborting_eq {α β : Type} (f : α → Option β) (items : List α) :
    runAborting f items =
      ((items.takeWhile fun i => (f i).isSome).filterMap
          (fun i => (f i).map fun v => (i, v)),
        items.any fun i => (f i).isNone) := by
  induction items with
  | nil => rfl
  | cons i rest ih =>
    cases hf : f i with
    | none => simp [runAborting, hf, List.takeWhile_cons, List.any_cons]
    | some v => simp [runAborting, hf, ih, List.takeWhile_cons, List.any_cons]

/-- C10 counterexample: in a two-item batch whose first item fails, the
analytics-recompute loop shape processes nothing at all — item `1`'s
computation succeeds but is never run — while the try/catch loop shape of the
other two jobs still processes it. -/
theorem analyticsJob_aborts_on_failure :
    runAborting failsOnZero [0, 1] = ([], true) ∧ failsOnZero 1 = some 1 ∧
      runContinuing failsOnZero [0, 1] = [(1, 1)] :=
  ⟨rfl, rfl, rfl⟩

/-- C10 (amended): the snapshot-refresh and signal-score loops (try/catch per
item) process exactly the non-failing items, in order — every item whose
computation succeeds is processed no matter which other items fail; the
analytics-recompute loop (no try/catch) processes only the prefix before the
first failing item and aborts iff an item fails. -/
theorem batchJobs_error_handling {α β : Type} (f : α → Option β) (items : List α) :
    runContinuing f items =
      items.filterMap (fun i => (f i).map fun v => (i, v)) ∧
    runAborting f items =
      ((items.takeWhile fun i => (f i).isSome).filterMap
          (fun i => (f i).map fun v => (i, v)),
        items.any fun i => (f i).isNone) ∧
    ∀ i ∈ items, ∀ v, f i = some v → (i, v) ∈ runContinuing f items := by
  refine ⟨runContinuing_eq f items, runAborting_eq f items, fun i hi v hv => ?_⟩
  rw [runContinuing_eq]
  exact List.mem_filterMap.mpr ⟨i, hi, by simp [hv]⟩

/-- C10 witness: in the batch `[0, 5]` under `failsOnZero`, the succeeding
item `5` is still processed by the try/catch jobs. -/
theorem batchJobs_error_handling_witness :
    ((5 : ℕ), (5 : ℕ)) ∈ runContinuing failsOnZero [0, 5] :=
  (batchJobs_error_handling failsOnZero [0, 5]).2.2 5 (by simp) 5 rfl

/-- `processEngagement` accumulates the sum and the count of the present
engagement rates. -/
lemma processEngagement_eq (items : List EngagementItem) (acc : ℚ × ℕ) :
    processEngagement acc items =
      (acc.1 + (items.filterMap EngagementItem.agent).sum,
        acc.2 + (items.filterMap EngagementItem.agent).length) := by
  induction items generalizing acc with
  | nil => simp [processEngagement]
  | cons item rest ih =>
    unfold processEngagement at ih ⊢
    rw [List.foldl_cons]
    cases hf : item.agent with
    | none => simp [hf, ih]
    | some r =>
      rw [ih]
      simp only [List.filterMap_cons, hf, List.sum_cons, List.length_cons, Prod.mk.injEq]
      exact ⟨by ring, by ring⟩

/-- C8 counterexample: agent 1 (engagement rate 1/10) reacted twice and agent
2 (rate 0) reacted once; the code averages over the three reaction events
(score 200/3 ≈ 66.7), not over the two distinct engagers (score 50). -/
theorem audienceScore_counts_repeat_engagers :
    calculateAudienceScore [⟨1, some (1/10)⟩, ⟨1, some (1/10)⟩] [⟨2, some 0⟩] = 200 / 3 ∧
    audienceScoreDistinct [⟨1, some (1/10)⟩, ⟨1, some (1/10)⟩] [⟨2, some 0⟩] = 50 ∧
    ((200 / 3 : ℚ) ≠ 50) := by
  refine ⟨?_, ?_, by norm_num⟩
  · norm_num [calculateAudienceScore, processEngagement]
  · norm_num [audienceScoreDistinct, List.dedup, List.find?, List.filterMap,
      Option.bind, List.head?]

/-- C8 (amended): the audience score is the mean engagement rate over all
engagement *events* on the agent's posts — every reaction and every comment
with a joined agent contributes once, so an agent who engaged `k` times is
counted `k` times — scaled ×1000 and capped at 100. -/
theorem audienceScore_is_event_mean (reactions comments : List EngagementItem) :
    calculateAudienceScore reactions comments =
      audienceScoreByEvent reactions comments := by
  unfold calculateAudienceScore audienceScoreByEvent
  rw [processEngagement_eq, processEngagement_eq]
  simp [List.filterMap_append]

/-- C5 counterexample: scenario B's primary token (market cap $5,000,000,
2,000 holders, here with zero liquidity and volume) scores 16, because
$5,000,000 sits in the (1e6, 1e7] tier worth 9 points — not the 12 points the
scenario figure assumes (12 + 7 = 19 ≠ 16). -/
theorem scenarioB_mcap_tier_is_9_not_12 :
    mcapScore 5000000 = 9 ∧
    calculateTokenScore (some ⟨5000000, 2000, 0, 0⟩) = 16 ∧
    ((16 : ℚ) ≠ 12 + 7) := by
  refine ⟨by norm_num [mcapScore], ?_, by norm_num⟩
  norm_num [calculateTokenScore, mcapScore, round10]

/-- C5 (amended): the market-cap component follows the tier table with strict
breakpoints at 1e3/1e4/1e5/1e6/1e7/1e8 USD mapping to 1/3/6/9/12/15 points, so
scenario B's $5,000,000 market cap is worth 9 points (not 12), and with 2,000
holders the holder component caps at 7; the token score is 9 + 7 plus the
liquidity and volume components, rounded to one decimal. -/
theorem tokenScore_tier_table (m L V : ℚ) :
    (m ≤ 1000 → mcapScore m = 0) ∧
    (1000 < m → m ≤ 10000 → mcapScore m = 1) ∧
    (10000 < m → m ≤ 100000 → mcapScore m = 3) ∧
    (100000 < m → m ≤ 1000000 → mcapScore m = 6) ∧
    (1000000 < m → m ≤ 10000000 → mcapScore m = 9) ∧
    (10000000 < m → m ≤ 100000000 → mcapScore m = 12) ∧
    (100000000 < m → mcapScore m = 15) ∧
    calculateTokenScore (some ⟨5000000, 2000, L, V⟩) =
      round10 (9 + 7 + min (L / 100000 * 5) 5 + min (V / 50000 * 3) 3) := by
  refine ⟨fun h1 => ?_, fun h1 h2 => ?_, fun h1 h2 => ?_, fun h1 h2 => ?_,
    fun h1 h2 => ?_, fun h1 h2 => ?_, fun h1 => ?_, ?_⟩ <;>
    first
      | (unfold mcapScore; split_ifs <;> first | rfl | linarith)
      | (have h9 : mcapScore 5000000 = 9 := by norm_num [mcapScore]
         have h7 : min ((2000 : ℚ) / 1000 * 7) 7 = 7 := by norm_num
         unfold calculateTokenScore
         dsimp only
         rw [h9, h7])

/-- C5 witness: the tier table applied at concrete market caps ($500 → 0,
$5,000,000 → 9, $20,000,000 → 12), and the scenario-B token-score formula at
zero liquidity and volume. -/
theorem tokenScore_tier_table_witness :
    mcapScore 500 = 0 ∧ mcapScore 5000000 = 9 ∧ mcapScore 20000000 = 12 ∧
    calculateTokenScore (some ⟨5000000, 2000, 0, 0⟩) =
      round10 (9 + 7 + min ((0 : ℚ) / 100000 * 5) 5 + min ((0 : ℚ) / 50000 * 3) 3) :=
  ⟨(tokenScore_tier_table 500 0 0).1 (by norm_num),
    (tokenScore_tier_table 5000000 0 0).2.2.2.2.1 (by norm_num) (by norm_num),
    (tokenScore_tier_table 20000000 0 0).2.2.2.2.2.1 (by norm_num) (by norm_num),
    (tokenScore_tier_table 5000000 0 0).2.2.2.2.2.2.2⟩

/-- C1: the composed signal score is *not* confined to [0, 100] for
adversarial stored values, because the quality and audience components are not
clamped before summation and the final sum is clamped only from above: the
`adversarialStore` agent (one log with stored quality_score -10000) gets
signal score -994.5, and a stored audience_score of 1000 drives the social
sub-score to 100, far above its nominal 30-point cap. -/
theorem signalScore_not_clamped_below :
    calculateSignalScoreFor adversarialStore 1 = -(1989 / 2) ∧
    calculateSignalScoreFor adversarialStore 1 < 0 ∧
    calculateSocialScore 0 1000 0 = 100 := by
  have h : calculateSignalScoreFor adversarialStore 1 = -(1989 / 2) := by
    norm_num [calculateSignalScoreFor, adversarialStore, findAgent, calculateBuildScore,
      calculateTokenScore, calculateSocialScore, calculateVerificationBonus,
      DAY_MS, List.filter, round10]
  exact ⟨h, by rw [h]; norm_num, by norm_num [calculateSocialScore, round10]⟩

/-- A field whose adapter values are all zero or missing merges to zero. -/
lemma firstPositive_of_all_zero (vals : List (Option ℚ)) :
    (∀ v ∈ vals, v = none ∨ v = some 0) → firstPositive vals = 0 := by
  induction vals with
  | nil => intro _; rfl
  | cons v rest ih =>
    intro h
    have hrest := ih fun x hx => h x (List.mem_cons_of_mem _ hx)
    rcases h v (List.mem_cons_self _ _) with hv | hv <;> subst hv <;>
      simp [firstPositive, hrest]

/-- C4: when every adapter result reports the holder count as zero or missing,
the recorded snapshot's holder count equals the holder count of the most
recent stored snapshot with a strictly positive holder count (and is 0 when no
such snapshot exists); the carry-forward applies to the holder count
exclusively — every other field is inserted exactly as merged, so an all-zero
field is recorded as zero. -/
theorem holders_carry_forward (results : List PartialTokenData)
    (history : List StoredSnapshot)
    (hh : ∀ r ∈ results, r.holders = none ∨ r.holders = some 0) :
    (recordTokenSnapshot (mergeTokenData results) history).holders =
      (lastPositiveHolders history).getD 0 ∧
    ((∀ s ∈ history, ¬ 0 < s.holders) →
      (recordTokenSnapshot (mergeTokenData results) history).holders = 0) ∧
    (recordTokenSnapshot (mergeTokenData results) history).price_usd =
      (mergeTokenData results).priceUsd ∧
    (recordTokenSnapshot (mergeTokenData results) history).market_cap =
      (mergeTokenData results).marketCap ∧
    (recordTokenSnapshot (mergeTokenData results) history).volume_24h =
      (mergeTokenData results).volume24h ∧
    (recordTokenSnapshot (mergeTokenData results) history).liquidity =
      (mergeTokenData results).liquidity := by
  have hz : (mergeTokenData results).holders = 0 := by
    show mergeField (results.map PartialTokenData.holders) = 0
    rw [mergeField_eq_firstPositive]
    apply firstPositive_of_all_zero
    intro v hv
    rcases List.mem_map.mp hv with ⟨r, hr, rfl⟩
    exact hh r hr
  refine ⟨?_, fun hnone => ?_, rfl, rfl, rfl, rfl⟩
  · unfold recordTokenSnapshot
    rw [if_pos hz]
    cases hl : lastPositiveHolders history <;> simp [hl, hz]
  · have hfil : (history.filter fun s => 0 < s.holders) = [] := by
      rw [List.filter_eq_nil_iff]
      intro s hs
      simpa using hnone s hs
    unfold recordTokenSnapshot
    rw [if_pos hz]
    simp [lastPositiveHolders, hfil, hz]

/-- C4 witness: one adapter result with holders 0, a history whose most recent
snapshot has 0 holders but whose next one has 7 — the recorded holder count is
the carried-forward 7. -/
theorem holders_carry_forward_witness :
    (recordTokenSnapshot
        (mergeTokenData [⟨some 2, none, some 0, none, none, none⟩])
        [⟨5, 0⟩, ⟨4, 7⟩, ⟨3, 9⟩]).holders = 7 := by
  have h := (holders_carry_forward [⟨some 2, none, some 0, none, none, none⟩]
    [⟨5, 0⟩, ⟨4, 7⟩, ⟨3, 9⟩] (by decide)).1
  rw [h]
  decide

/-- C2: for every valid Q64.96 sqrt-price and every token decimal precision,
the derived USD price is non-negative; the decimal scaling is branch-correct
in both directions — both the multiply branch (token decimals above 18) and
the divide branch (below 18) compute `priceE18` scaled by `10^(d-18)` as a
signed power; and with equal decimals (18) and pool price ratio 1
(`sqrtPriceX96 = Q96`) the derived price is exactly 1 × the reference ETH
price. -/
theorem poolPrice_nonneg_branch_correct (s d : ℕ) (ethPrice : ℚ)
    (h : 0 ≤ ethPrice) :
    0 ≤ derivedPriceUsd s d ethPrice ∧
    tokenPriceInWeth s d =
      (priceE18 s : ℚ) * (10 : ℚ) ^ ((d : ℤ) - 18) / 10 ^ 18 ∧
    derivedPriceUsd Q96 18 ethPrice = 1 * ethPrice := by
  have hbranch : tokenPriceInWeth s d =
      (priceE18 s : ℚ) * (10 : ℚ) ^ ((d : ℤ) - 18) / 10 ^ 18 := by
    unfold tokenPriceInWeth
    split_ifs with h18 hgt
    · subst h18
      norm_num
    · have he : (d : ℤ) - 18 = ((d - 18 : ℕ) : ℤ) := by omega
      rw [he, zpow_natCast]
      push_cast
      ring
    · have he : (d : ℤ) - 18 = -((18 - d : ℕ) : ℤ) := by omega
      rw [he, zpow_neg, zpow_natCast]
      have h10 : ((10 : ℚ) ^ (18 - d)) ≠ 0 := by positivity
      push_cast
      field_simp
  refine ⟨?_, hbranch, ?_⟩
  · unfold derivedPriceUsd
    apply mul_nonneg _ h
    rw [hbranch]
    positivity
  · unfold derivedPriceUsd
    have h1 : tokenPriceInWeth Q96 18 = 1 := by
      unfold tokenPriceInWeth
      rw [if_pos rfl]
      have hp : priceE18 Q96 = 10 ^ 18 := by
        unfold priceE18
        exact Nat.mul_div_cancel_left _ (by norm_num [Q96])
      rw [hp]
      norm_num
    rw [h1]

/-- C2 witness: at `sqrtPriceX96 = Q96`, 6 token decimals and an ETH price of
4000 the hypotheses hold; in particular the ratio-1 equal-decimals price is
exactly 4000. -/
theorem poolPrice_nonneg_branch_correct_witness :
    0 ≤ (4000 : ℚ) ∧
    (0 ≤ derivedPriceUsd Q96 6 4000 ∧
      tokenPriceInWeth Q96 6 =
        (priceE18 Q96 : ℚ) * (10 : ℚ) ^ (((6 : ℕ) : ℤ) - 18) / 10 ^ 18 ∧
      derivedPriceUsd Q96 18 4000 = 1 * 4000) :=
  ⟨by norm_num, poolPrice_nonneg_branch_correct Q96 6 4000 (by norm_num)⟩

/-- A signal-score write leaves a row's id untouched. -/
lemma gUpdate_id (j : ℕ) (v : ℚ) (a : AgentRow) : (gUpdate j v a).id = a.id := by
  unfold gUpdate; split <;> rfl

/-- A signal-score write leaves a row's verification flag untouched. -/
lemma gUpdate_erc8004 (j : ℕ) (v : ℚ) (a : AgentRow) :
    (gUpdate j v a).erc8004 = a.erc8004 := by
  unfold gUpdate; split <;> rfl

/-- A signal-score write leaves a row's twitter flag untouched. -/
lemma gUpdate_twitter (j : ℕ) (v : ℚ) (a : AgentRow) :
    (gUpdate j v a).twitter = a.twitter := by
  unfold gUpdate; split <;> rfl

/-- A signal-score write leaves a row's github link untouched. -/
lemma gUpdate_linked_github (j : ℕ) (v : ℚ) (a : AgentRow) :
    (gUpdate j v a).linked_github = a.linked_github := by
  unfold gUpdate; split <;> rfl

/-- A signal-score write leaves a row's website flag untouched. -/
lemma gUpdate_website (j : ℕ) (v : ℚ) (a : AgentRow) :
    (gUpdate j v a).website = a.website := by
  unfold gUpdate; split <;> rfl

/-- A signal-score write leaves a row's engagement rate untouched. -/
lemma gUpdate_engagement_rate (j : ℕ) (v : ℚ) (a : AgentRow) :
    (gUpdate j v a).engagement_rate = a.engagement_rate := by
  unfold gUpdate; split <;> rfl

/-- A signal-score write leaves a row's audience score untouched. -/
lemma gUpdate_audience_score (j : ℕ) (v : ℚ) (a : AgentRow) :
    (gUpdate j v a).audience_score = a.audience_score := by
  unfold gUpdate; split <;> rfl

/-- A signal-score write leaves a row's growth trend untouched. -/
lemma gUpdate_growth_trend (j : ℕ) (v : ℚ) (a : AgentRow) :
    (gUpdate j v a).growth_trend = a.growth_trend := by
  unfold gUpdate; split <;> rfl

/-- Looking an agent up after a signal-score write finds the written row. -/
lemma findAgent_map_gUpdate (l : List AgentRow) (j : ℕ) (v : ℚ) (k : ℕ) :
    findAgent (l.map (gUpdate j v)) k = (findAgent l k).map (gUpdate j v) := by
  induction l with
  | nil => rfl
  | cons a rest ih =>
    simp only [List.map_cons, findAgent, gUpdate_id]
    split_ifs with hk
    · rfl
    · exact ih

/-- The signal-score calculator never reads the `signal_score` column, so a
signal-score write does not change any agent's computed score. -/
lemma calcFor_setScore (s : Store) (j : ℕ) (v : ℚ) (k : ℕ) :
    calculateSignalScoreFor (setSignalScore s j v) k =
      calculateSignalScoreFor s k := by
  unfold calculateSignalScoreFor setSignalScore
  dsimp only
  rw [findAgent_map_gUpdate]
  cases hf : findAgent s.agents k with
  | none => rfl
  | some a =>
    dsimp only [Option.map_some']
    rw [gUpdate_engagement_rate, gUpdate_audience_score, gUpdate_growth_trend,
      gUpdate_erc8004, gUpdate_twitter, gUpdate_linked_github, gUpdate_website]

/-- A signal-score write does not change which agents are identity-verified. -/
lemma verifiedIds_setScore (s : Store) (j : ℕ) (v : ℚ) :
    verifiedIds (setSignalScore s j v) = verifiedIds s := by
  unfold verifiedIds setSignalScore
  dsimp only
  suffices h : ∀ l : List AgentRow,
      ((l.map (gUpdate j v)).filter fun a => a.erc8004).map AgentRow.id =
        (l.filter fun a => a.erc8004).map AgentRow.id from h s.agents
  intro l
  induction l with
  | nil => rfl
  | cons a rest ih =>
    simp only [List.map_cons, List.filter_cons, gUpdate_erc8004]
    by_cases he : a.erc8004 = true
    · simp [he, gUpdate_id, ih]
    · simp [he, ih]

/-- No step of the signal-score batch changes any agent's computed score. -/
lemma calcFor_foldl (ids : List ℕ) (s : Store) (k : ℕ) :
    calculateSignalScoreFor (ids.foldl signalStep s) k =
      calculateSignalScoreFor s k := by
  induction ids generalizing s with
  | nil => rfl
  | cons i rest ih =>
    rw [List.foldl_cons, ih]
    exact calcFor_setScore s i _ k

/-- No step of the signal-score batch changes the set of verified agents. -/
lemma verifiedIds_foldl (ids : List ℕ) (s : Store) :
    verifiedIds (ids.foldl signalStep s) = verifiedIds s := by
  induction ids generalizing s with
  | nil => rfl
  | cons i rest ih =>
    rw [List.foldl_cons, ih]
    exact verifiedIds_setScore s i _

/-- One batch step on one row, reduced to a pure conditional update whose
written value is fixed against the original store. -/
lemma signalStep_elem (s : Store) (i : ℕ) (rest : List ℕ) (a : AgentRow) :
    (fun b =>
        if b.id ∈ rest then
          { b with signal_score := calculateSignalScoreFor s b.id } else b)
        (gUpdate i (calculateSignalScoreFor s i) a) =
      if a.id ∈ i :: rest then
        { a with signal_score := calculateSignalScoreFor s a.id } else a := by
  unfold gUpdate
  by_cases hid : a.id = i
  · subst hid
    rw [if_pos (show (a.id == a.id) = true by simp)]
    dsimp only
    by_cases hmem : a.id ∈ rest
    · rw [if_pos hmem, if_pos (List.mem_cons_self _ _)]
    · rw [if_neg hmem, if_pos (List.mem_cons_self _ _)]
  · rw [if_neg (show ¬(a.id == i) = true by simp [hid])]
    dsimp only
    by_cases hmem : a.id ∈ rest
    · rw [if_pos hmem, if_pos (List.mem_cons_of_mem _ hmem)]
    · rw [if_neg hmem, if_neg (by simp [hid, hmem])]

/-- Closed form of the signal-score batch: every row whose id is in the batch
gets the score computed against the original store, every other row is
untouched, and nothing else in the store changes. -/
lemma foldl_signalStep_store (ids : List ℕ) (s : Store) :
    ids.foldl signalStep s =
      { s with
        agents := s.agents.map fun a =>
          if a.id ∈ ids then
            { a with signal_score := calculateSignalScoreFor s a.id } else a } := by
  induction ids generalizing s with
  | nil => cases s; simp
  | cons i rest ih =>
    rw [List.foldl_cons, ih (signalStep s i)]
    have hcalc : ∀ k, calculateSignalScoreFor (signalStep s i) k =
        calculateSignalScoreFor s k := fun k => calcFor_setScore s i _ k
    simp only [hcalc]
    show Store.mk _ _ _ _ = Store.mk _ _ _ _
    congr 1
    show (s.agents.map (gUpdate i (calculateSignalScoreFor s i))).map _ = _
    rw [List.map_map]
    apply List.map_congr_left
    intro a _
    exact signalStep_elem s i rest a

/-- Applying the batch's row update twice is the same as applying it once. -/
lemma batch_row_update_idem (ids : List ℕ) (v : ℕ → ℚ) (l : List AgentRow) :
    ((l.map fun a =>
        if a.id ∈ ids then { a with signal_score := v a.id } else a).map
      fun a => if a.id ∈ ids then { a with signal_score := v a.id } else a) =
      l.map fun a =>
        if a.id ∈ ids then { a with signal_score := v a.id } else a := by
  rw [List.map_map]
  apply List.map_congr_left
  intro a _
  dsimp only [Function.comp_apply]
  by_cases h : a.id ∈ ids
  · rw [if_pos h, if_pos h]
  · rw [if_neg h, if_neg h]

/-- C9: the signal-score recompute job is idempotent — running
`updateAllSignalScores` twice in succession over the same stored activity,
snapshot and identity data produces exactly the same store (hence the same
SignalScore for every identity-verified agent) as running it once: the
calculators never read the `signal_score` column the job writes. -/
theorem signalRecompute_idempotent (st : Store) :
    updateAllSignalScores (updateAllSignalScores st) = updateAllSignalScores st := by
  show (verifiedIds (updateAllSignalScores st)).foldl signalStep
      (updateAllSignalScores st) = updateAllSignalScores st
  rw [show verifiedIds (updateAllSignalScores st) = verifiedIds st from
    verifiedIds_foldl _ st]
  show (verifiedIds st).foldl signalStep ((verifiedIds st).foldl signalStep st) =
    (verifiedIds st).foldl signalStep st
  rw [foldl_signalStep_store (verifiedIds st) ((verifiedIds st).foldl signalStep st)]
  simp only [calcFor_foldl]
  rw [foldl_signalStep_store (verifiedIds st) st]
  dsimp only
  congr 1
  exact batch_row_update_idem (verifiedIds st) (calculateSignalScoreFor st) st.agents

end Clawg
